import Mathlib

/-!
Formal verification of the piton/femr labeling core: a shallow embedding of
the labeler code in src/ (labelers derived from patient event timelines,
severity classifiers for lab values, and the event-store value codec),
together with theorems settling the specification's claims about it.

Modelling conventions:
* datetimes are integers counting minutes (datetime.timedelta(minutes=1) is 1,
  one hour is 60, one day is 1440); comparison and subtraction of datetimes
  become integer comparison and subtraction;
* Python floats are modelled as rationals (the claims under study concern
  order comparisons and exact divisions by 18, 100, 10, 60, all of which the
  classifiers perform on clinical magnitudes where ideal arithmetic is the
  intended reading);
* a Python string holding a raw lab value is split by whether float() accepts
  it: RawValue.num q models a string parsing to the float q, RawValue.text s
  models a string float() rejects;
* raised exceptions become Except.error, a try/except that skips a record
  becomes dropping the Option/Except error case.
-/

/-! ### Python string primitives (ASCII model)

Python str.lower() and str.startswith() restricted to the ASCII range, which
covers every unit and sentinel string the labelers compare against. -/

/-- Lowercase one ASCII character, as Python str.lower does on ASCII input. -/
def lowerChar (c : Char) : Char :=
  if 65 ≤ c.toNat ∧ c.toNat ≤ 90 then Char.ofNat (c.toNat + 32) else c

/-- Python str.lower on an ASCII string. -/
def lowerStr (s : String) : String := ⟨s.data.map lowerChar⟩

/-- Python s.startswith(pre). -/
def pyStartsWith (s pre : String) : Bool := pre.data.isPrefixOf s.data

/-! ### Raw lab values -/

/-- The raw value handed to value_to_label. The labelers receive it as a
Python string (piton passes str(event.value)); we split it by the behavior of
float(): RawValue.num q is a string that parses as the float q, and
RawValue.text s is a string that float() rejects with ValueError. A numeric
string never lowercases to a sentinel word, and no sentinel word parses as a
float, so the split is faithful. -/
inductive RawValue where
  | text (s : String)
  | num (q : ℚ)
deriving DecidableEq

/-- Tests whether an Except is in the error case (a raised Python exception). -/
def isErr {ε α : Type} : Except ε α → Bool
  | .error _ => true
  | .ok _ => false

/-! ### Severity classifiers (value_to_label)

Sources: src/src/femr/labelers/benchmarks.py lines 455-613 and
src/src/piton/labelers/omop_lab_values.py lines 110-264. The hyperkalemia,
hypoglycemia, thrombocytopenia and hyponatremia classifiers are textually
identical in the two files; the anemia classifier below is the benchmarks.py
one (it has the extra g/l branch the piton copy lacks). Each classifier's
trailing threshold ladder is split into a *_thresholds helper; the unit
dispatch and sentinel handling mirror the source control flow. -/

/-- Threshold ladder of HyperkalemiaInstantLabValueLabeler.value_to_label
(benchmarks.py lines 512-518): value > 7 severe, > 6 moderate, > 5.5 mild,
else normal. -/
def hyperkalemia_thresholds (value : ℚ) : Except String String :=
  if value > 7 then .ok "severe"
  else if value > 6 then .ok "moderate"
  else if value > 5.5 then .ok "mild"
  else .ok "normal"

/-- HyperkalemiaInstantLabValueLabeler.value_to_label (benchmarks.py lines
490-518; identical to HyperkalemiaLabValueLabeler.value_to_label,
omop_lab_values.py lines 142-170). Sentinel strings short-circuit to normal;
mmol/l and meq/l are taken 1-to-1, mg/dl is divided by 18; an unrecognized or
missing unit raises ValueError. -/
def hyperkalemia_value_to_label (raw_value : RawValue) (unit : Option String) :
    Except String String :=
  match raw_value with
  | .text s =>
      if lowerStr s = "normal" ∨ lowerStr s = "adequate" then .ok "normal"
      else .error "could not convert string to float"
  | .num value =>
      match unit with
      | none => .error "Unknown unit: None"
      | some u0 =>
          let u := lowerStr u0
          if pyStartsWith u "mmol/l" then hyperkalemia_thresholds value
          else if pyStartsWith u "meq/l" then hyperkalemia_thresholds value
          else if pyStartsWith u "mg/dl" then hyperkalemia_thresholds (value / 18)
          else .error ("Unknown unit: " ++ u)

/-- Threshold ladder of HypoglycemiaInstantLabValueLabeler.value_to_label
(benchmarks.py lines 549-555): value < 3 severe, < 3.5 moderate, <= 3.9 mild,
else normal. -/
def hypoglycemia_thresholds (value : ℚ) : Except String String :=
  if value < 3 then .ok "severe"
  else if value < 3.5 then .ok "moderate"
  else if value ≤ 3.9 then .ok "mild"
  else .ok "normal"

/-- HypoglycemiaInstantLabValueLabeler.value_to_label (benchmarks.py lines
531-555; identical to HypoglycemiaLabValueLabeler.value_to_label,
omop_lab_values.py lines 182-206). mg/dl is divided by 18, mmol/l is taken
1-to-1; an unrecognized or missing unit raises ValueError. -/
def hypoglycemia_value_to_label (raw_value : RawValue) (unit : Option String) :
    Except String String :=
  match raw_value with
  | .text s =>
      if lowerStr s = "normal" ∨ lowerStr s = "adequate" then .ok "normal"
      else .error "could not convert string to float"
  | .num value =>
      match unit with
      | none => .error "Unknown unit: None"
      | some u0 =>
          let u := lowerStr u0
          if pyStartsWith u "mg/dl" then hypoglycemia_thresholds (value / 18)
          else if pyStartsWith u "mmol/l" then hypoglycemia_thresholds value
          else .error ("Unknown unit: " ++ u)

/-- Threshold ladder of AnemiaInstantLabValueLabeler.value_to_label
(benchmarks.py lines 607-613): value < 70 severe, < 110 moderate, < 120 mild,
else normal. -/
def anemia_thresholds (value : ℚ) : Except String String :=
  if value < 70 then .ok "severe"
  else if value < 110 then .ok "moderate"
  else if value < 120 then .ok "mild"
  else .ok "normal"

/-- AnemiaInstantLabValueLabeler.value_to_label (benchmarks.py lines 585-613).
g/dl is multiplied by 10, mg/dl is divided by 100, g/l is taken 1-to-1; an
unrecognized or missing unit raises ValueError. -/
def anemia_value_to_label (raw_value : RawValue) (unit : Option String) :
    Except String String :=
  match raw_value with
  | .text s =>
      if lowerStr s = "normal" ∨ lowerStr s = "adequate" then .ok "normal"
      else .error "could not convert string to float"
  | .num value =>
      match unit with
      | none => .error "Unknown unit: None"
      | some u0 =>
          let u := lowerStr u0
          if pyStartsWith u "g/dl" then anemia_thresholds (value * 10)
          else if pyStartsWith u "mg/dl" then anemia_thresholds (value / 100)
          else if pyStartsWith u "g/l" then anemia_thresholds value
          else .error ("Unknown unit: " ++ u)

/-- ThrombocytopeniaInstantLabValueLabeler.value_to_label (benchmarks.py lines
465-475; identical to ThrombocytopeniaLabValueLabeler.value_to_label,
omop_lab_values.py lines 119-129). No unit handling: value < 50 severe,
< 100 moderate, < 150 mild, else normal. -/
def thrombocytopenia_value_to_label (raw_value : RawValue)
    (_unit : Option String) : Except String String :=
  match raw_value with
  | .text s =>
      if lowerStr s = "normal" ∨ lowerStr s = "adequate" then .ok "normal"
      else .error "could not convert string to float"
  | .num value =>
      if value < 50 then .ok "severe"
      else if value < 100 then .ok "moderate"
      else if value < 150 then .ok "mild"
      else .ok "normal"

/-- HyponatremiaInstantLabValueLabeler.value_to_label (benchmarks.py lines
564-574; identical to HyponatremiaLabValueLabeler.value_to_label,
omop_lab_values.py lines 217-227). No unit handling: value < 125 severe,
< 130 moderate, <= 135 mild, else normal. -/
def hyponatremia_value_to_label (raw_value : RawValue)
    (_unit : Option String) : Except String String :=
  match raw_value with
  | .text s =>
      if lowerStr s = "normal" ∨ lowerStr s = "adequate" then .ok "normal"
      else .error "could not convert string to float"
  | .num value =>
      if value < 125 then .ok "severe"
      else if value < 130 then .ok "moderate"
      else if value ≤ 135 then .ok "mild"
      else .ok "normal"

/-! ### The meds patient model and InstantLabValueLabeler

Source: src/src/femr/labelers/omop_labs.py lines 29-91. A meds patient is a
patient_id plus a time-ordered list of events; each event carries a time and a
list of measurements, each measurement a code, an optional numeric value, and
an optional unit (from its metadata). value_to_label is abstract in the base
class, so the embedding takes the classifier as a parameter
(classify : ℚ → Option String → Except String String, the exception carried
as the error case). -/

/-- A measurement inside a meds event: code, numeric_value, metadata unit. -/
structure Measurement where
  code : String
  numeric_value : Option ℚ
  unit : Option String
deriving DecidableEq

/-- A meds event: a time and its list of measurements. -/
structure MEvent where
  time : ℤ
  measurements : List Measurement
deriving DecidableEq

/-- A meds patient: patient_id and events (ordered by time, ties possible). -/
structure MPatient where
  patient_id : ℕ
  events : List MEvent
deriving DecidableEq

/-- A meds label as built by InstantLabValueLabeler.label: patient_id,
prediction_time, integer_value. -/
structure MLabel where
  patient_id : ℕ
  prediction_time : ℤ
  integer_value : ℤ
deriving DecidableEq

/-- InstantLabValueLabeler.label_to_int (omop_labs.py lines 74-83):
normal 0, mild 1, moderate 2, severe 3, anything else raises ValueError. -/
def label_to_int (label : String) : Except String ℤ :=
  if label = "normal" then .ok 0
  else if label = "mild" then .ok 1
  else if label = "moderate" then .ok 2
  else if label = "severe" then .ok 3
  else .error "Invalid label without a corresponding int"

/-- Body of the inner measurement loop of InstantLabValueLabeler.label
(omop_labs.py lines 56-71): a measurement whose code is in the outcome set and
whose numeric value is present yields one label at the event time minus one
minute, valued label_to_int (value_to_label value unit); any exception raised
by that classification (the try/except) drops the measurement's label. -/
def measurement_label (pid : ℕ) (outcome_codes : List String)
    (classify : ℚ → Option String → Except String String)
    (event_time : ℤ) (m : Measurement) : Option MLabel :=
  if m.code ∈ outcome_codes then
    match m.numeric_value with
    | some v =>
        match (classify v m.unit).bind label_to_int with
        | .ok i => some ⟨pid, event_time - 1, i⟩
        | .error _ => none
    | none => none
  else none

/-- The event loop of InstantLabValueLabeler.label (omop_labs.py lines 52-72):
events whose time equals the first event's time t0 are skipped; every other
event contributes the labels of its measurements in order. -/
def instant_label_go (pid : ℕ) (outcome_codes : List String)
    (classify : ℚ → Option String → Except String String)
    (t0 : ℤ) : List MEvent → List MLabel
  | [] => []
  | e :: rest =>
      if e.time = t0 then instant_label_go pid outcome_codes classify t0 rest
      else
        e.measurements.filterMap
            (measurement_label pid outcome_codes classify e.time)
          ++ instant_label_go pid outcome_codes classify t0 rest

/-- InstantLabValueLabeler.label (omop_labs.py lines 50-72), parametrized by
the configured outcome code set and the subclass's value_to_label. -/
def instant_label (outcome_codes : List String)
    (classify : ℚ → Option String → Except String String)
    (patient : MPatient) : List MLabel :=
  match patient.events with
  | [] => []
  | e0 :: _ =>
      instant_label_go patient.patient_id outcome_codes classify e0.time
        patient.events

/-- The classifier the hyperkalemia instant labeler plugs into
InstantLabValueLabeler.label, applied to the measurement's numeric value. -/
def hyperkalemia_classify (v : ℚ) (u : Option String) : Except String String :=
  hyperkalemia_value_to_label (.num v) u

/-! ### Spec-side characterization of the instant labeler

Written from the spec's words (spec.md section 4.5) for the refinement claim
C4: for every event whose code matches the configured outcome set and carries
a classifiable numeric result, emit exactly one label at event time minus one
minute whose value is the severity bucket as an ordinal integer (normal 0,
mild 1, moderate 2, severe 3); skip events occurring at the same instant as
the patient's very first recorded event; skip unclassifiable measurements. -/

/-- Severity bucket to ordinal integer, per the spec's words. -/
def ordinal_of_severity (s : String) : Option ℤ :=
  if s = "normal" then some 0
  else if s = "mild" then some 1
  else if s = "moderate" then some 2
  else if s = "severe" then some 3
  else none

/-- One measurement's label per the spec's words (spec.md section 4.5). -/
def spec_measurement_label (pid : ℕ) (outcome_codes : List String)
    (classify : ℚ → Option String → Except String String)
    (event_time : ℤ) (m : Measurement) : Option MLabel :=
  if m.code ∈ outcome_codes then
    match m.numeric_value with
    | some v =>
        match classify v m.unit with
        | .ok s => (ordinal_of_severity s).map (fun i => ⟨pid, event_time - 1, i⟩)
        | .error _ => none
    | none => none
  else none

/-- InstantLabValueLabeler.label per the spec's words (spec.md section 4.5). -/
def spec_instant_label (outcome_codes : List String)
    (classify : ℚ → Option String → Except String String)
    (patient : MPatient) : List MLabel :=
  match patient.events with
  | [] => []
  | e0 :: _ =>
      (patient.events.filter (fun e => e.time ≠ e0.time)).flatMap
        (fun e =>
          e.measurements.filterMap
            (spec_measurement_label patient.patient_id outcome_codes classify
              e.time))

/-! ### Day arithmetic and Python list idioms

In the minutes-as-integers time model, replace(hour=0, minute=0, second=0,
microsecond=0) is flooring to a multiple of 1440. -/

/-- datetime.replace(hour=0, minute=0, second=0, microsecond=0): midnight of
the datetime's calendar day. Int.emod is nonnegative, so this floors. -/
def dayFloor (t : ℤ) : ℤ := t - t % 1440

/-- Modelled from the spec: move_datetime_to_end_of_day, imported by
benchmarks.py and omop_inpatient_admissions.py from femr.labelers.omop, which
is not in src/. Spec.md section 4.4 describes it as "shift prediction to
23:59:59 of the admission day"; at minute granularity that is the last minute
of the datetime's day. -/
def move_datetime_to_end_of_day (t : ℤ) : ℤ := dayFloor t + 1439

/-- Python sorted(list(set(xs))) on datetimes: the distinct elements in
increasing order. -/
def sortedDedup (xs : List ℤ) : List ℤ :=
  List.insertionSort (· ≤ ·) xs.dedup

/-- Python min(xs) on a nonempty list (callers guard emptiness; the [] value
is never reached there). -/
def pyMin : List ℤ → ℤ
  | [] => 0
  | x :: xs => xs.foldl min x

/-! ### Readmission prediction times

Source: InpatientReadmissionLabeler.get_prediction_times
(src/src/piton/labelers/omop_inpatient_admissions.py lines 109-121) and the
textually identical Guo_30DayReadmissionLabeler.get_prediction_times
(src/src/femr/labelers/benchmarks.py lines 167-179). The admission/discharge
pairs come from get_inpatient_admission_discharge_times (femr.labelers.omop,
not in src/), so the embedding takes the pair list as an input; both labelers
use move_datetime_to_end_of_day as the prediction-time adjustment (the
default for InpatientReadmissionLabeler, hardcoded for Guo). -/

/-- The loop of get_prediction_times: per (admission_time, discharge_time)
pair, the prediction time is the adjusted discharge; a pair whose prediction
time falls on a calendar day already in the accumulated admission-day set is
skipped (no label, and its admission day is not added); otherwise the
prediction time is emitted and the pair's admission day added. -/
def readmission_go (adjust : ℤ → ℤ) :
    List (ℤ × ℤ) → List ℤ → List ℤ
  | [], _ => []
  | (admission_time, discharge_time) :: rest, admission_days =>
      let prediction_time := adjust discharge_time
      if dayFloor prediction_time ∈ admission_days then
        readmission_go adjust rest admission_days
      else
        prediction_time ::
          readmission_go adjust rest (dayFloor admission_time :: admission_days)

/-- InpatientReadmissionLabeler.get_prediction_times
(omop_inpatient_admissions.py lines 109-121): the loop above followed by
sorted(list(set(...))), with the default end-of-day adjustment. -/
def readmission_get_prediction_times (pairs : List (ℤ × ℤ)) : List ℤ :=
  sortedDedup (readmission_go move_datetime_to_end_of_day pairs [])

/-! ### First-diagnosis prediction times

Source: FirstDiagnosisTimeHorizonCodeLabeler.get_prediction_times and
get_outcome_times (src/src/femr/labelers/benchmarks.py lines 648-674). The
admission/discharge pairs again come from the out-of-src
get_inpatient_admission_discharge_times and are taken as an input. Events here
are the femr Event objects used by benchmarks.py: a start time, an optional
end time, a code, and an omop_table tag. -/

/-- A femr Event as used by benchmarks.py: start, end (optional), code,
omop_table. The end field is named endTime because end is a Lean keyword. -/
structure FEvent where
  start : ℤ
  endTime : Option ℤ
  code : String
  omop_table : Option String
deriving DecidableEq

/-- FirstDiagnosisTimeHorizonCodeLabeler.get_outcome_times (benchmarks.py
lines 668-674): start times of the patient's events whose code is in the
configured outcome code set. -/
def firstDiagnosis_get_outcome_times (outcome_codes : List String)
    (events : List FEvent) : List ℤ :=
  (events.filter (fun e => e.code ∈ outcome_codes)).map (fun e => e.start)

/-- FirstDiagnosisTimeHorizonCodeLabeler.get_prediction_times (benchmarks.py
lines 648-666): candidate times are the end-of-day-adjusted discharge times,
deduplicated and sorted; if the patient has no outcome they are all returned,
otherwise only those strictly before the earliest outcome time. -/
def firstDiagnosis_get_prediction_times (pairs : List (ℤ × ℤ))
    (outcome_times : List ℤ) : List ℤ :=
  let times :=
    sortedDedup (pairs.map (fun p => move_datetime_to_end_of_day p.2))
  if outcome_times = [] then times
  else times.filter (fun t => t < pyMin outcome_times)

/-! ### The Harutyunyan remaining-length-of-stay labeler

Source: src/src/femr/labelers/benchmarks.py: get_icu_events (lines 65-92) and
Harutyunyan_LengthOfStayLabeler (lines 369-443). The ICU care-site code set
(get_icu_visit_detail_codes), the death code set (get_femr_codes over
get_death_concepts) and does_exist_event_within_time_range live partly
outside src/ (femr.labelers.omop); they are taken as parameters: a list of
ICU codes, a list of death codes, and a boolean range-nonemptiness test. -/

/-- get_icu_events (benchmarks.py lines 65-92): keep events whose code is in
the ICU code set and whose omop_table is visit_detail; a kept event missing
its end raises RuntimeError, start after end raises RuntimeError, and
zero-length events (start equal to end) are dropped. -/
def get_icu_events (icu_codes : List String) :
    List FEvent → Except String (List FEvent)
  | [] => .ok []
  | e :: rest =>
      if e.code ∈ icu_codes ∧ e.omop_table = some "visit_detail" then
        match e.endTime with
        | none => .error "cannot have None as its start or end attribute"
        | some en =>
            if e.start > en then .error "cannot have start after end"
            else if e.start = en then get_icu_events icu_codes rest
            else (get_icu_events icu_codes rest).map (fun l => e :: l)
      else get_icu_events icu_codes rest

/-- The while loop of Harutyunyan_LengthOfStayLabeler.label (benchmarks.py
lines 434-442): starting from event_time, while event_time < end_of_stay emit
(event_time, remaining stay in hours) and advance one hour. total_seconds()
divided by 3600 is minutes divided by 60. -/
def los_loop (end_of_stay event_time : ℤ) : List (ℤ × ℚ) :=
  if event_time < end_of_stay then
    (event_time, ((end_of_stay - event_time : ℤ) : ℚ) / 60) ::
      los_loop end_of_stay (event_time + 60)
  else []
termination_by (end_of_stay - event_time).toNat
decreasing_by omega

/-- Harutyunyan_LengthOfStayLabeler.label (benchmarks.py lines 399-443).
Death times are the starts of events with a death code; earliest_death_time
is their minimum, or datetime.max when there are none (modelled as Option,
min with datetime.max being the identity). Each ICU event with an end, length
at least 4 hours and a passing event-existence test contributes the hourly
labels of los_loop from start plus 4 hours up to the earlier of its end and
the earliest death. Labels are (time, hours) pairs. -/
def harutyunyan_los_label (icu_codes death_codes : List String)
    (does_exist_event_within_time_range : ℤ → ℤ → Bool)
    (events : List FEvent) : Except String (List (ℤ × ℚ)) :=
  (get_icu_events icu_codes events).map (fun icu_events =>
    let death_times :=
      (events.filter (fun e => e.code ∈ death_codes)).map (fun e => e.start)
    icu_events.flatMap (fun e =>
      match e.endTime with
      | none => []
      | some en =>
          if en - e.start ≥ 240 ∧ does_exist_event_within_time_range e.start en
          then
            let end_of_stay :=
              if death_times = [] then en else min en (pyMin death_times)
            los_loop end_of_stay (e.start + 240)
          else []))

/-! ### The event-store value codec

Source: src/src/piton/datasets/fileio.py, _encode_value (lines 24-29) and
_decode_value (lines 38-51). An event value is None, an int, a float or a
str. Encoding maps None to the empty string and everything else through
Python str(). Decoding maps the empty string to None, a digit-only string
through int(), any other string through float() when that parses, and
returns the string itself otherwise. Python float() parsing is taken as a
parameter (floatParse); the decode branches exercised by the claims run
before or instead of it. -/

/-- Big-endian decimal digit list of a natural number, with explicit fuel so
that the definition is structural (fuel n + 1 always suffices, since the
argument shrinks by a factor of ten per step). -/
def natDigits : ℕ → ℕ → List ℕ
  | 0, _ => []
  | fuel + 1, n =>
      if n < 10 then [n]
      else natDigits fuel (n / 10) ++ [n % 10]

/-- Python str(n) for a natural number: its decimal digits as characters. -/
def pyStrOfNat (n : ℕ) : String :=
  ⟨(natDigits (n + 1) n).map (fun d => Char.ofNat (48 + d))⟩

/-- Python str(z) for an int: a minus sign before the digits when negative. -/
def pyStrOfInt (z : ℤ) : String :=
  if z < 0 then "-" ++ pyStrOfNat z.natAbs else pyStrOfNat z.toNat

/-- Is the character an ASCII decimal digit (codepoints 48 to 57). -/
def pyCharIsDigit (c : Char) : Bool :=
  decide (48 ≤ c.toNat ∧ c.toNat ≤ 57)

/-- Python str.isdigit, ASCII model: nonempty and all characters digits. -/
def pyIsDigit (s : String) : Bool :=
  !s.data.isEmpty && s.data.all pyCharIsDigit

/-- Python int(s) on a digit-only string: left fold of decimal digits. -/
def parseNat (s : String) : ℕ :=
  s.data.foldl (fun a c => 10 * a + (c.toNat - 48)) 0

/-- A Python value of type int | float | str | None, as stored in
Event.value. -/
inductive PyVal where
  | none
  | int (z : ℤ)
  | float (q : ℚ)
  | str (s : String)
deriving DecidableEq

/-- _encode_value (fileio.py lines 24-29): None encodes to the empty string,
everything else to str(a). No claim depends on the float rendering, which is
modelled by the rational's repr. -/
def _encode_value : PyVal → String
  | .none => ""
  | .int z => pyStrOfInt z
  | .float q => toString q
  | .str s => s

/-- _decode_value (fileio.py lines 38-51): the empty string decodes to None;
a digit-only string through int(); otherwise float() is attempted, a
ValueError falling back to the string itself. -/
def _decode_value (floatParse : String → Option ℚ) (a : String) : PyVal :=
  if a = "" then .none
  else if pyIsDigit a then .int (parseNat a)
  else
    match floatParse a with
    | some q => .float q
    | none => .str a

/-- A concrete stand-in for Python float() parsing used by the closed
witness and counterexample below: it accepts nothing. Python float() also
rejects the strings those closed statements feed it (the empty string and
the word junk), and the empty-string branch of _decode_value runs before the
parser is ever consulted. -/
def rejectAllFloats : String → Option ℚ := fun _ => Option.none

/-! ## Theorems -/

/-! ### Helper lemmas for the severity classifiers -/

/-- Threshold characterization of the hyperkalemia ladder. -/
theorem hyperkalemia_thresholds_iff (v : ℚ) :
    (hyperkalemia_thresholds v = .ok "severe" ↔ 7 < v) ∧
    (hyperkalemia_thresholds v = .ok "moderate" ↔ (6 < v ∧ ¬ 7 < v)) ∧
    (hyperkalemia_thresholds v = .ok "mild" ↔ (5.5 < v ∧ ¬ 6 < v)) ∧
    (hyperkalemia_thresholds v = .ok "normal" ↔ ¬ 5.5 < v) := by
  unfold hyperkalemia_thresholds
  split_ifs with h1 h2 h3 <;> simp_all <;>
    first
      | linarith
      | (constructor <;> intros <;> linarith)

/-- Evaluation of the hyperkalemia classifier at 6.5 mmol/L. -/
theorem hyperkalemia_eval_moderate :
    hyperkalemia_value_to_label (.num 6.5) (some "mmol/L") = .ok "moderate" := by
  have h : pyStartsWith (lowerStr "mmol/L") "mmol/l" = true := by decide
  simp only [hyperkalemia_value_to_label, h, if_true]
  norm_num [hyperkalemia_thresholds]

/-- Evaluation of the hyperkalemia classifier at 5.5 mEq/L. -/
theorem hyperkalemia_eval_normal :
    hyperkalemia_value_to_label (.num 5.5) (some "mEq/L") = .ok "normal" := by
  have h1 : pyStartsWith (lowerStr "mEq/L") "mmol/l" = false := by decide
  have h2 : pyStartsWith (lowerStr "mEq/L") "meq/l" = true := by decide
  simp only [hyperkalemia_value_to_label, h1, h2, if_true, Bool.false_eq_true,
    if_false]
  norm_num [hyperkalemia_thresholds]

/-- The normalized potassium value named by claim C2: mmol/L and mEq/L map
one-to-one, mg/dL divides by 18 (matching the unit dispatch of
hyperkalemia_value_to_label; the value is only meaningful on recognized
units). -/
def hyperkalemia_normalize (q : ℚ) (u : String) : ℚ :=
  if pyStartsWith (lowerStr u) "mmol/l" then q
  else if pyStartsWith (lowerStr u) "meq/l" then q
  else if pyStartsWith (lowerStr u) "mg/dl" then q / 18
  else q

/-- C2: the potassium (hyperkalemia) severity classifier, after normalizing
mmol/L and mEq/L one-to-one and dividing mg/dL values by 18, uses strict
comparisons: severe iff the normalized value is strictly greater than 7,
moderate iff strictly greater than 6 (and not severe), mild iff strictly
greater than 5.5 (and not moderate or severe), else normal; value 6.5 with
unit mmol/L classifies as moderate and value 5.5 with unit mEq/L classifies
as normal. -/
theorem hyperkalemia_classifier_strict_thresholds (q : ℚ) (u : String)
    (hrec : pyStartsWith (lowerStr u) "mmol/l" = true ∨
            pyStartsWith (lowerStr u) "meq/l" = true ∨
            pyStartsWith (lowerStr u) "mg/dl" = true) :
    (hyperkalemia_value_to_label (.num q) (some u) = .ok "severe" ↔
      7 < hyperkalemia_normalize q u) ∧
    (hyperkalemia_value_to_label (.num q) (some u) = .ok "moderate" ↔
      (6 < hyperkalemia_normalize q u ∧ ¬ 7 < hyperkalemia_normalize q u)) ∧
    (hyperkalemia_value_to_label (.num q) (some u) = .ok "mild" ↔
      (5.5 < hyperkalemia_normalize q u ∧ ¬ 6 < hyperkalemia_normalize q u)) ∧
    (hyperkalemia_value_to_label (.num q) (some u) = .ok "normal" ↔
      ¬ 5.5 < hyperkalemia_normalize q u) ∧
    hyperkalemia_value_to_label (.num 6.5) (some "mmol/L") = .ok "moderate" ∧
    hyperkalemia_value_to_label (.num 5.5) (some "mEq/L") = .ok "normal" := by
  have heval :
      hyperkalemia_value_to_label (.num q) (some u) =
        hyperkalemia_thresholds (hyperkalemia_normalize q u) := by
    unfold hyperkalemia_value_to_label hyperkalemia_normalize
    rcases hrec with h | h | h <;> simp [h] <;> split_ifs <;> simp_all
  rw [heval]
  exact ⟨(hyperkalemia_thresholds_iff _).1, (hyperkalemia_thresholds_iff _).2.1,
    (hyperkalemia_thresholds_iff _).2.2.1, (hyperkalemia_thresholds_iff _).2.2.2,
    hyperkalemia_eval_moderate, hyperkalemia_eval_normal⟩

/-- Witness for C2: unit mg/dL is recognized, and 130 mg/dL (normalized to
130/18, which exceeds 7) classifies as severe. -/
theorem hyperkalemia_classifier_strict_thresholds_witness :
    (pyStartsWith (lowerStr "mg/dL") "mmol/l" = true ∨
     pyStartsWith (lowerStr "mg/dL") "meq/l" = true ∨
     pyStartsWith (lowerStr "mg/dL") "mg/dl" = true) ∧
    hyperkalemia_value_to_label (.num 130) (some "mg/dL") = .ok "severe" := by
  refine ⟨Or.inr (Or.inr (by decide)), ?_⟩
  refine (hyperkalemia_classifier_strict_thresholds 130 "mg/dL"
    (Or.inr (Or.inr (by decide)))).1.mpr ?_
  have h1 : pyStartsWith (lowerStr "mg/dL") "mmol/l" = false := by decide
  have h2 : pyStartsWith (lowerStr "mg/dL") "meq/l" = false := by decide
  have h3 : pyStartsWith (lowerStr "mg/dL") "mg/dl" = true := by decide
  simp only [hyperkalemia_normalize, h1, h2, h3, Bool.false_eq_true, if_false,
    if_true]
  norm_num

/-- C5: every unit-normalizing severity classifier (potassium/hyperkalemia,
glucose/hypoglycemia, hemoglobin/anemia) raises an error on a non-sentinel
numeric reading whose unit is missing or fails every case-insensitive prefix
match against that test's recognized units — the reading is never silently
classified under a default unit. -/
theorem unit_normalizing_classifiers_reject_unknown_units (q : ℚ) :
    isErr (hyperkalemia_value_to_label (.num q) Option.none) = true ∧
    isErr (hypoglycemia_value_to_label (.num q) Option.none) = true ∧
    isErr (anemia_value_to_label (.num q) Option.none) = true ∧
    (∀ u : String,
      pyStartsWith (lowerStr u) "mmol/l" = false →
      pyStartsWith (lowerStr u) "meq/l" = false →
      pyStartsWith (lowerStr u) "mg/dl" = false →
      isErr (hyperkalemia_value_to_label (.num q) (some u)) = true) ∧
    (∀ u : String,
      pyStartsWith (lowerStr u) "mg/dl" = false →
      pyStartsWith (lowerStr u) "mmol/l" = false →
      isErr (hypoglycemia_value_to_label (.num q) (some u)) = true) ∧
    (∀ u : String,
      pyStartsWith (lowerStr u) "g/dl" = false →
      pyStartsWith (lowerStr u) "mg/dl" = false →
      pyStartsWith (lowerStr u) "g/l" = false →
      isErr (anemia_value_to_label (.num q) (some u)) = true) := by
  refine ⟨rfl, rfl, rfl, ?_, ?_, ?_⟩ <;> intro u <;> intros <;>
    simp_all [hyperkalemia_value_to_label, hypoglycemia_value_to_label,
      anemia_value_to_label, isErr]

/-- Witness for C5: the unit ounces matches no recognized potassium unit and
a potassium reading of 5 with that unit errors out. -/
theorem unit_normalizing_classifiers_reject_unknown_units_witness :
    pyStartsWith (lowerStr "ounces") "mmol/l" = false ∧
    pyStartsWith (lowerStr "ounces") "meq/l" = false ∧
    pyStartsWith (lowerStr "ounces") "mg/dl" = false ∧
    isErr (hyperkalemia_value_to_label (.num 5) (some "ounces")) = true := by
  refine ⟨by decide, by decide, by decide, ?_⟩
  exact (unit_normalizing_classifiers_reject_unknown_units 5).2.2.2.1 "ounces"
    (by decide) (by decide) (by decide)

/-- C6: for every severity classifier and every unit, a raw value whose
case-insensitive form is normal or adequate classifies as normal without
consulting the numeric thresholds or the unit — no parse error and no unit
error. -/
theorem sentinel_values_short_circuit_to_normal (s : String)
    (u : Option String)
    (h : lowerStr s = "normal" ∨ lowerStr s = "adequate") :
    thrombocytopenia_value_to_label (.text s) u = .ok "normal" ∧
    hyperkalemia_value_to_label (.text s) u = .ok "normal" ∧
    hypoglycemia_value_to_label (.text s) u = .ok "normal" ∧
    hyponatremia_value_to_label (.text s) u = .ok "normal" ∧
    anemia_value_to_label (.text s) u = .ok "normal" := by
  unfold thrombocytopenia_value_to_label hyperkalemia_value_to_label
    hypoglycemia_value_to_label hyponatremia_value_to_label
    anemia_value_to_label
  exact ⟨if_pos h, if_pos h, if_pos h, if_pos h, if_pos h⟩

/-- Witness for C6: the raw value Adequate lowercases to adequate and
classifies as normal on every classifier even with a nonsense unit. -/
theorem sentinel_values_short_circuit_to_normal_witness :
    (lowerStr "Adequate" = "normal" ∨ lowerStr "Adequate" = "adequate") ∧
    thrombocytopenia_value_to_label (.text "Adequate") (some "furlongs") =
      .ok "normal" := by
  refine ⟨Or.inr (by decide), ?_⟩
  exact (sentinel_values_short_circuit_to_normal "Adequate" (some "furlongs")
    (Or.inr (by decide))).1

/-! ### The first-occurrence-only labeler (C7) -/

/-- Membership in sortedDedup is membership in the underlying list. -/
theorem mem_sortedDedup {t : ℤ} {xs : List ℤ} :
    t ∈ sortedDedup xs ↔ t ∈ xs := by
  unfold sortedDedup
  rw [(List.perm_insertionSort (· ≤ ·) xs.dedup).mem_iff, List.mem_dedup]

/-- C7: in FirstDiagnosisTimeHorizonCodeLabeler the returned prediction
times contain no time at or after the earliest outcome time — when the
patient has at least one outcome event every emitted prediction time is
strictly before the minimum outcome time, and when the patient has none all
candidate discharge-derived prediction times are kept. -/
theorem firstDiagnosis_prediction_times_before_first_outcome
    (outcome_codes : List String) (events : List FEvent)
    (pairs : List (ℤ × ℤ)) :
    (firstDiagnosis_get_outcome_times outcome_codes events ≠ [] →
      ∀ t ∈ firstDiagnosis_get_prediction_times pairs
          (firstDiagnosis_get_outcome_times outcome_codes events),
        t < pyMin (firstDiagnosis_get_outcome_times outcome_codes events)) ∧
    (firstDiagnosis_get_outcome_times outcome_codes events = [] →
      firstDiagnosis_get_prediction_times pairs
          (firstDiagnosis_get_outcome_times outcome_codes events) =
        sortedDedup
          (pairs.map (fun p => move_datetime_to_end_of_day p.2))) := by
  constructor
  · intro hne t ht
    unfold firstDiagnosis_get_prediction_times at ht
    rw [if_neg hne] at ht
    exact of_decide_eq_true (List.mem_filter.mp ht).2
  · intro he
    unfold firstDiagnosis_get_prediction_times
    rw [if_pos he]

/-- Witness for C7: a patient with one outcome at time 100000 and one
admission discharged at time 10 — the outcome list is nonempty and the lone
end-of-day prediction time 1439 is strictly before the earliest outcome. -/
theorem firstDiagnosis_prediction_times_before_first_outcome_witness :
    firstDiagnosis_get_outcome_times ["D"]
        [⟨100000, Option.none, "D", Option.none⟩] ≠ [] ∧
    (1439 : ℤ) ∈ firstDiagnosis_get_prediction_times [((0 : ℤ), (10 : ℤ))]
        (firstDiagnosis_get_outcome_times ["D"]
          [⟨100000, Option.none, "D", Option.none⟩]) ∧
    (1439 : ℤ) < pyMin (firstDiagnosis_get_outcome_times ["D"]
        [⟨100000, Option.none, "D", Option.none⟩]) := by
  refine ⟨by decide, by decide, ?_⟩
  exact (firstDiagnosis_prediction_times_before_first_outcome ["D"]
      [⟨100000, Option.none, "D", Option.none⟩] [((0 : ℤ), (10 : ℤ))]).1
    (by decide) 1439 (by decide)

/-! ### The value codec (C10) -/

/-- Char.ofNat recovers small codepoints. -/
theorem char_toNat_ofNat (m : ℕ) (h : m < 1000) : (Char.ofNat m).toNat = m := by
  unfold Char.ofNat
  rw [dif_pos (Or.inl (by omega))]
  rfl

/-- A digit character built from a digit value is an ASCII digit. -/
theorem pyCharIsDigit_ofNat (d : ℕ) (h : d < 10) :
    pyCharIsDigit (Char.ofNat (48 + d)) = true := by
  have h1 : (Char.ofNat (48 + d)).toNat = 48 + d := char_toNat_ofNat _ (by omega)
  simp only [pyCharIsDigit, h1, decide_eq_true_eq]
  omega

/-- The decimal digit expansion is nonempty, has digits below ten, and folds
back to the number it came from. -/
theorem natDigits_spec :
    ∀ fuel n, n < fuel →
      natDigits fuel n ≠ [] ∧ (∀ d ∈ natDigits fuel n, d < 10) ∧
      (natDigits fuel n).foldl (fun a d => 10 * a + d) 0 = n := by
  intro fuel
  induction fuel with
  | zero => intro n h; omega
  | succ fuel ih =>
    intro n h
    unfold natDigits
    by_cases h10 : n < 10
    · simp [h10]
    · rw [if_neg h10]
      have hrec := ih (n / 10) (by omega)
      refine ⟨by simp, ?_, ?_⟩
      · intro d hd
        rcases List.mem_append.mp hd with hd | hd
        · exact hrec.2.1 d hd
        · simp only [List.mem_singleton] at hd
          omega
      · rw [List.foldl_append, hrec.2.2]
        simp only [List.foldl_cons, List.foldl_nil]
        omega

/-- Folding the character-level parse over digit characters equals folding
the digit-level parse over the digits. -/
theorem parse_fold_map (ds : List ℕ) (hds : ∀ d ∈ ds, d < 10) :
    ∀ a : ℕ,
      (ds.map (fun d => Char.ofNat (48 + d))).foldl
          (fun a c => 10 * a + (c.toNat - 48)) a =
        ds.foldl (fun a d => 10 * a + d) a := by
  induction ds with
  | nil => intro a; rfl
  | cons d ds ih =>
    intro a
    simp only [List.map_cons, List.foldl_cons]
    rw [char_toNat_ofNat (48 + d) (by have := hds d (List.mem_cons_self d ds); omega)]
    rw [ih (fun x hx => hds x (List.mem_cons_of_mem d hx))]
    congr 1
    omega

/-- Decoding the decimal rendering of a natural number recovers it, the
rendering is nonempty, and it passes the isdigit test. -/
theorem pyStrOfNat_spec (n : ℕ) :
    pyStrOfNat n ≠ "" ∧ pyIsDigit (pyStrOfNat n) = true ∧
    parseNat (pyStrOfNat n) = n := by
  have hd := natDigits_spec (n + 1) n (by omega)
  have hdata : (pyStrOfNat n).data =
      (natDigits (n + 1) n).map (fun d => Char.ofNat (48 + d)) := rfl
  refine ⟨?_, ?_, ?_⟩
  · intro hcontra
    have : (pyStrOfNat n).data = [] := by rw [hcontra]
    rw [hdata] at this
    exact hd.1 (List.map_eq_nil_iff.mp this)
  · unfold pyIsDigit
    rw [hdata]
    have hne : (natDigits (n + 1) n).map (fun d => Char.ofNat (48 + d)) ≠ [] := by
      intro hcontra
      exact hd.1 (List.map_eq_nil_iff.mp hcontra)
    rw [Bool.and_eq_true]
    constructor
    · simp [List.isEmpty_iff, hne]
    · rw [List.all_eq_true]
      intro c hc
      rcases List.mem_map.mp hc with ⟨d, hdmem, rfl⟩
      exact pyCharIsDigit_ofNat d (hd.2.1 d hdmem)
  · unfold parseNat
    rw [hdata, parse_fold_map _ hd.2.1 0, hd.2.2]

/-- C10 (amended): the event-store value codec round-trips on None, on
nonnegative integers, and on nonempty strings that parse as neither an
integer nor a float; the empty-string encoding is reserved for None. The
empty string itself (see the counterexample) is the one string of the
claimed third class that does not round-trip. -/
theorem decode_encode_value_round_trip (floatParse : String → Option ℚ)
    (z : ℤ) (s : String) (hz : 0 ≤ z) (hs : s ≠ "")
    (hdigit : pyIsDigit s = false) (hfloat : floatParse s = Option.none) :
    _decode_value floatParse (_encode_value .none) = .none ∧
    _decode_value floatParse (_encode_value (.int z)) = .int z ∧
    _decode_value floatParse (_encode_value (.str s)) = .str s := by
  refine ⟨rfl, ?_, ?_⟩
  · have henc : _encode_value (.int z) = pyStrOfNat z.toNat := by
      show pyStrOfInt z = pyStrOfNat z.toNat
      unfold pyStrOfInt
      rw [if_neg (by omega)]
    have hspec := pyStrOfNat_spec z.toNat
    unfold _decode_value
    rw [henc, if_neg hspec.1, if_pos hspec.2.1, hspec.2.2]
    congr 1
    omega
  · show _decode_value floatParse s = .str s
    unfold _decode_value
    rw [if_neg hs, if_neg (by simp [hdigit]), hfloat]

/-- Witness for C10: the codec round-trips None, the integer 42, and the
non-numeric string junk (with a float parser rejecting it, as Python float()
does). -/
theorem decode_encode_value_round_trip_witness :
    (0 : ℤ) ≤ 42 ∧ "junk" ≠ "" ∧ pyIsDigit "junk" = false ∧
    rejectAllFloats "junk" = Option.none ∧
    _decode_value rejectAllFloats (_encode_value .none) = .none ∧
    _decode_value rejectAllFloats (_encode_value (.int 42)) = .int 42 ∧
    _decode_value rejectAllFloats (_encode_value (.str "junk")) =
      .str "junk" := by
  have h := decode_encode_value_round_trip rejectAllFloats 42 "junk"
    (by decide) (by decide) (by decide) rfl
  exact ⟨by decide, by decide, by decide, rfl, h.1, h.2.1, h.2.2⟩

/-- Counterexample for C10 as stated: the empty string parses as neither an
integer nor a float, yet decoding its encoding yields None, not the empty
string — the empty-string encoding is reserved for None, so the string
round-trip fails there. -/
theorem decode_encode_value_empty_string_counterexample :
    pyIsDigit "" = false ∧ rejectAllFloats "" = Option.none ∧
    _decode_value rejectAllFloats (_encode_value (.str "")) = .none ∧
    _decode_value rejectAllFloats (_encode_value (.str "")) ≠ .str "" := by
  exact ⟨rfl, rfl, rfl, by decide⟩

/-! ### The instant lab-value labeler (C1, C3, C4) -/

/-- Every label a measurement produces carries the event time minus one
minute. -/
theorem measurement_label_time {pid : ℕ} {codes : List String}
    {cl : ℚ → Option String → Except String String} {t : ℤ}
    {m : Measurement} {l : MLabel}
    (h : measurement_label pid codes cl t m = some l) :
    l.prediction_time = t - 1 := by
  unfold measurement_label at h
  split at h
  · split at h
    · split at h
      · cases h; rfl
      · cases h
    · cases h
  · cases h

/-- The event loop distributes over list append. -/
theorem instant_label_go_append (pid : ℕ) (codes : List String)
    (cl : ℚ → Option String → Except String String) (t0 : ℤ) :
    ∀ xs ys : List MEvent,
      instant_label_go pid codes cl t0 (xs ++ ys) =
        instant_label_go pid codes cl t0 xs ++
          instant_label_go pid codes cl t0 ys := by
  intro xs ys
  induction xs with
  | nil => rfl
  | cons e rest ih =>
    simp only [List.cons_append, instant_label_go, List.append_eq]
    split
    · exact ih
    · rw [ih, List.append_assoc]

/-- Every label the event loop emits comes from an event in the list, at
that event's time minus one minute. -/
theorem instant_label_go_mem (pid : ℕ) (codes : List String)
    (cl : ℚ → Option String → Except String String) (t0 : ℤ) :
    ∀ (evs : List MEvent) (l : MLabel),
      l ∈ instant_label_go pid codes cl t0 evs →
      ∃ e ∈ evs, l.prediction_time = e.time - 1 := by
  intro evs
  induction evs with
  | nil => intro l h; simp [instant_label_go] at h
  | cons e rest ih =>
    intro l h
    simp only [instant_label_go] at h
    split at h
    · rcases ih l h with ⟨e1, he1, ht⟩
      exact ⟨e1, List.mem_cons_of_mem _ he1, ht⟩
    · rcases List.mem_append.mp h with h | h
      · rcases List.mem_filterMap.mp h with ⟨m, _, hsome⟩
        exact ⟨e, List.mem_cons_self _ _, measurement_label_time hsome⟩
      · rcases ih l h with ⟨e1, he1, ht⟩
        exact ⟨e1, List.mem_cons_of_mem _ he1, ht⟩

/-- On a time-sorted event list the event loop emits labels with
non-decreasing prediction times. -/
theorem instant_label_go_monotone (pid : ℕ) (codes : List String)
    (cl : ℚ → Option String → Except String String) (t0 : ℤ) :
    ∀ evs : List MEvent,
      List.Pairwise (fun a b : MEvent => a.time ≤ b.time) evs →
      List.Pairwise
        (fun a b : MLabel => a.prediction_time ≤ b.prediction_time)
        (instant_label_go pid codes cl t0 evs) := by
  intro evs
  induction evs with
  | nil => intro _; exact List.Pairwise.nil
  | cons e rest ih =>
    intro hp
    simp only [instant_label_go]
    split
    · exact ih hp.of_cons
    · rw [List.pairwise_append]
      refine ⟨?_, ih hp.of_cons, ?_⟩
      · apply List.pairwise_of_forall_mem_list
        intro a ha b hb
        rcases List.mem_filterMap.mp ha with ⟨ma, _, hsa⟩
        rcases List.mem_filterMap.mp hb with ⟨mb, _, hsb⟩
        rw [measurement_label_time hsa, measurement_label_time hsb]
      · intro a ha b hb
        rcases List.mem_filterMap.mp ha with ⟨ma, _, hsa⟩
        rcases instant_label_go_mem pid codes cl t0 rest b hb with ⟨e1, he1, ht⟩
        have hle : e.time ≤ e1.time := (List.pairwise_cons.mp hp).1 e1 he1
        rw [measurement_label_time hsa, ht]
        omega

/-- C1 (amended): for every patient whose events are sorted ascending by
time, the prediction times of InstantLabValueLabeler.label are
non-decreasing; they need not be strictly ascending or duplicate-free — see
the counterexample, where two qualifying measurements at the same event time
yield the same prediction time twice. -/
theorem instant_label_prediction_times_monotone (codes : List String)
    (cl : ℚ → Option String → Except String String) (p : MPatient)
    (hsorted : List.Pairwise (fun a b : MEvent => a.time ≤ b.time) p.events) :
    List.Pairwise (fun a b : MLabel => a.prediction_time ≤ b.prediction_time)
      (instant_label codes cl p) := by
  unfold instant_label
  match hp : p.events with
  | [] => exact List.Pairwise.nil
  | e0 :: rest =>
    rw [hp] at hsorted
    exact instant_label_go_monotone p.patient_id codes cl e0.time _ hsorted

/-- A patient with a first event at time 0 and a later event at time 10
carrying two qualifying potassium measurements of 6.5 mmol/L. Two lab
results for the same test at the same instant are ordinary clinical data. -/
def twoMeasurementPatient : MPatient :=
  ⟨7, [⟨0, []⟩,
       ⟨10, [⟨"K", some 6.5, some "mmol/L"⟩,
             ⟨"K", some 6.5, some "mmol/L"⟩]⟩]⟩

/-- Counterexample for C1 as stated: on twoMeasurementPatient the
hyperkalemia instant labeler emits two labels with the same prediction time
9, so its prediction times are neither strictly ascending nor free of
duplicates. -/
theorem instant_label_duplicate_prediction_times_counterexample :
    instant_label ["K"] hyperkalemia_classify twoMeasurementPatient =
      [⟨7, 9, 2⟩, ⟨7, 9, 2⟩] ∧
    ¬ List.Pairwise
        (fun a b : MLabel => a.prediction_time < b.prediction_time)
        (instant_label ["K"] hyperkalemia_classify twoMeasurementPatient) := by
  have hc : hyperkalemia_classify 6.5 (some "mmol/L") = .ok "moderate" := by
    unfold hyperkalemia_classify
    exact hyperkalemia_eval_moderate
  have hm : measurement_label 7 ["K"] hyperkalemia_classify 10
      ⟨"K", some 6.5, some "mmol/L"⟩ = some ⟨7, 9, 2⟩ := by
    simp only [measurement_label, hc, label_to_int, Except.bind]
    norm_num
    simp
  have heval : instant_label ["K"] hyperkalemia_classify
      twoMeasurementPatient = [⟨7, 9, 2⟩, ⟨7, 9, 2⟩] := by
    unfold twoMeasurementPatient instant_label
    simp only [instant_label_go, List.filterMap_cons, List.filterMap_nil, hm]
    norm_num
  refine ⟨heval, ?_⟩
  rw [heval]
  decide

/-- Witness for C1 (amended): twoMeasurementPatient has time-sorted events,
and the labeler's prediction times on it are non-decreasing. -/
theorem instant_label_prediction_times_monotone_witness :
    List.Pairwise (fun a b : MEvent => a.time ≤ b.time)
      twoMeasurementPatient.events ∧
    List.Pairwise (fun a b : MLabel => a.prediction_time ≤ b.prediction_time)
      (instant_label ["K"] hyperkalemia_classify twoMeasurementPatient) :=
  ⟨by decide, instant_label_prediction_times_monotone _ _ _ (by decide)⟩

/-- A measurement whose classification raises produces no label. -/
theorem measurement_label_of_error {pid : ℕ} {codes : List String}
    {cl : ℚ → Option String → Except String String} {t : ℤ}
    {m : Measurement} {v : ℚ}
    (hval : m.numeric_value = some v)
    (herr : isErr ((cl v m.unit).bind label_to_int) = true) :
    measurement_label pid codes cl t m = none := by
  unfold measurement_label
  split
  · rw [hval]
    cases hb : (cl v m.unit).bind label_to_int with
    | ok i => rw [hb] at herr; simp [isErr] at herr
    | error e => simp [hb]
  · rfl

/-- Dropping a measurement that produces no label from one event leaves the
event loop's output unchanged, wherever the event sits in the list. -/
theorem instant_label_go_drop_failing (pid : ℕ) (codes : List String)
    (cl : ℚ → Option String → Except String String) (t0 t : ℤ)
    (mpre mpost : List Measurement) (m : Measurement)
    (hm : ∀ t1 : ℤ, measurement_label pid codes cl t1 m = none) :
    ∀ evs1 post : List MEvent,
      instant_label_go pid codes cl t0
          (evs1 ++ ⟨t, mpre ++ m :: mpost⟩ :: post) =
        instant_label_go pid codes cl t0
          (evs1 ++ ⟨t, mpre ++ mpost⟩ :: post) := by
  intro evs1
  induction evs1 with
  | nil =>
    intro post
    simp only [List.nil_append, instant_label_go]
    by_cases ht : t = t0
    · rw [if_pos ht, if_pos ht]
    · rw [if_neg ht, if_neg ht, List.filterMap_append, List.filterMap_append,
        List.filterMap_cons, hm t]
  | cons a rest ih =>
    intro post
    simp only [List.cons_append, instant_label_go, List.append_eq]
    split
    · exact ih post
    · rw [ih post]

/-- C3: if classifying one measurement raises (unparseable value or
unrecognized unit), only that measurement's label is omitted: the label list
of the patient equals the label list of the same patient with that single
measurement removed — the rest of the timeline is processed unchanged and
the error never aborts it. -/
theorem instant_label_skips_only_failing_measurement
    (outcome_codes : List String)
    (cl : ℚ → Option String → Except String String) (pid : ℕ)
    (pre post : List MEvent) (t : ℤ) (mpre mpost : List Measurement)
    (m : Measurement) (v : ℚ)
    (hval : m.numeric_value = some v)
    (herr : isErr ((cl v m.unit).bind label_to_int) = true) :
    instant_label outcome_codes cl
        ⟨pid, pre ++ ⟨t, mpre ++ m :: mpost⟩ :: post⟩ =
      instant_label outcome_codes cl
        ⟨pid, pre ++ ⟨t, mpre ++ mpost⟩ :: post⟩ := by
  have hnone : ∀ t1 : ℤ,
      measurement_label pid outcome_codes cl t1 m = none := fun t1 =>
    measurement_label_of_error hval herr
  cases pre with
  | nil =>
      exact instant_label_go_drop_failing pid outcome_codes cl t t
        mpre mpost m hnone [] post
  | cons a pre1 =>
      exact instant_label_go_drop_failing pid outcome_codes cl a.time t
        mpre mpost m hnone (a :: pre1) post

/-- Witness for C3: a potassium measurement with the unrecognized unit
ounces raises inside classification, and removing exactly that measurement
from its event leaves the labeler output unchanged. -/
theorem instant_label_skips_only_failing_measurement_witness :
    (⟨"K", some 5, some "ounces"⟩ : Measurement).numeric_value = some 5 ∧
    isErr ((hyperkalemia_classify 5
        (⟨"K", some 5, some "ounces"⟩ : Measurement).unit).bind
      label_to_int) = true ∧
    instant_label ["K"] hyperkalemia_classify
        ⟨7, [⟨0, []⟩] ++
          ⟨10, [] ++ (⟨"K", some 5, some "ounces"⟩ : Measurement) ::
            [⟨"K", some 8, some "mmol/L"⟩]⟩ :: []⟩ =
      instant_label ["K"] hyperkalemia_classify
        ⟨7, [⟨0, []⟩] ++ ⟨10, [] ++ [⟨"K", some 8, some "mmol/L"⟩]⟩ :: []⟩ := by
  refine ⟨rfl, by decide, ?_⟩
  exact instant_label_skips_only_failing_measurement ["K"]
    hyperkalemia_classify 7 [⟨0, []⟩] [] 10 []
    [⟨"K", some 8, some "mmol/L"⟩] ⟨"K", some 5, some "ounces"⟩ 5 rfl
    (by decide)

/-- The measurement loop body agrees with the spec's per-measurement rule. -/
theorem measurement_label_eq_spec (pid : ℕ) (codes : List String)
    (cl : ℚ → Option String → Except String String) (t : ℤ)
    (m : Measurement) :
    measurement_label pid codes cl t m =
      spec_measurement_label pid codes cl t m := by
  unfold measurement_label spec_measurement_label
  split
  · cases hv : m.numeric_value with
    | none => rfl
    | some v =>
        cases hcl : cl v m.unit with
        | ok s =>
            simp only [hcl, Except.bind]
            unfold label_to_int ordinal_of_severity
            split_ifs <;> rfl
        | error e => simp only [hcl, Except.bind]
  · rfl

/-- The event loop agrees with the spec's filter-then-collect form. -/
theorem instant_label_go_eq_spec (pid : ℕ) (codes : List String)
    (cl : ℚ → Option String → Except String String) (t0 : ℤ) :
    ∀ evs : List MEvent,
      instant_label_go pid codes cl t0 evs =
        (evs.filter (fun e => e.time ≠ t0)).flatMap
          (fun e =>
            e.measurements.filterMap
              (spec_measurement_label pid codes cl e.time)) := by
  intro evs
  induction evs with
  | nil => rfl
  | cons e rest ih =>
    simp only [instant_label_go]
    by_cases h : e.time = t0
    · rw [if_pos h, List.filter_cons_of_neg (by simp [h]), ih]
    · rw [if_neg h, List.filter_cons_of_pos (by simp [h]), List.flatMap_cons,
        ih]
      congr 1
      apply List.filterMap_congr
      intro m _
      exact measurement_label_eq_spec pid codes cl e.time m

/-- C4: InstantLabValueLabeler.label emits, for each event whose measurement
code is in the configured outcome set and whose numeric value is present and
classifiable, exactly one label at the event's time minus one minute valued
with the severity bucket as an ordinal integer (the spec_instant_label
form), the ordinal encoding being normal 0, mild 1, moderate 2, severe 3;
events at the same instant as the patient's first event produce no label
(they are excluded by the spec form's filter). -/
theorem instant_label_matches_spec (outcome_codes : List String)
    (cl : ℚ → Option String → Except String String) (p : MPatient) :
    instant_label outcome_codes cl p = spec_instant_label outcome_codes cl p ∧
    label_to_int "normal" = .ok 0 ∧ label_to_int "mild" = .ok 1 ∧
    label_to_int "moderate" = .ok 2 ∧ label_to_int "severe" = .ok 3 := by
  refine ⟨?_, rfl, rfl, rfl, rfl⟩
  unfold instant_label spec_instant_label
  match p.events with
  | [] => rfl
  | e0 :: rest =>
      exact instant_label_go_eq_spec p.patient_id outcome_codes cl e0.time (e0 :: rest)

/-! ### Readmission day-granularity deduplication (C8) -/

/-- The sortedDedup of a list is strictly ascending. -/
theorem sortedDedup_pairwise_lt (xs : List ℤ) :
    List.Pairwise (· < ·) (sortedDedup xs) := by
  have hsorted : List.Pairwise (· ≤ ·) (sortedDedup xs) :=
    List.sorted_insertionSort (· ≤ ·) xs.dedup
  have hnodup : (sortedDedup xs).Nodup :=
    xs.nodup_dedup.perm (List.perm_insertionSort (· ≤ ·) xs.dedup).symm
  exact (hsorted.and hnodup).imp (fun h => lt_of_le_of_ne h.1 h.2)

/-- The end of a day lies in the day it extends. -/
theorem dayFloor_end_of_day (t : ℤ) :
    dayFloor (move_datetime_to_end_of_day t) = dayFloor t := by
  simp only [move_datetime_to_end_of_day, dayFloor]
  omega

/-- Every time the readmission loop emits is the end-of-day adjustment of
one of the discharge times. -/
theorem readmission_go_mem (adjust : ℤ → ℤ) :
    ∀ (pairs : List (ℤ × ℤ)) (days : List ℤ) (t : ℤ),
      t ∈ readmission_go adjust pairs days →
      ∃ pr ∈ pairs, t = adjust pr.2 := by
  intro pairs
  induction pairs with
  | nil => intro days t h; simp [readmission_go] at h
  | cons pr rest ih =>
    intro days t h
    simp only [readmission_go] at h
    split at h
    · rcases ih _ t h with ⟨pr1, hpr1, ht⟩
      exact ⟨pr1, List.mem_cons_of_mem _ hpr1, ht⟩
    · rcases List.mem_cons.mp h with rfl | h
      · exact ⟨pr, List.mem_cons_self _ _, rfl⟩
      · rcases ih _ t h with ⟨pr1, hpr1, ht⟩
        exact ⟨pr1, List.mem_cons_of_mem _ hpr1, ht⟩

/-- C8: the readmission labelers deduplicate prediction times to day
granularity. The output is strictly ascending; every output time is the
end-of-day instant of some discharge, so all prediction times falling on one
calendar day coincide with the single (hence earliest) one kept, and two
distinct output times always lie on distinct calendar days; and a pair whose
prediction time falls on a calendar day already counted as an admission day
is skipped entirely, contributing no prediction time and no admission day. -/
theorem readmission_prediction_times_day_granularity
    (pairs : List (ℤ × ℤ)) :
    List.Pairwise (· < ·) (readmission_get_prediction_times pairs) ∧
    (∀ t ∈ readmission_get_prediction_times pairs,
      ∃ pr ∈ pairs, t = move_datetime_to_end_of_day pr.2) ∧
    (∀ t1 ∈ readmission_get_prediction_times pairs,
      ∀ t2 ∈ readmission_get_prediction_times pairs,
        t1 ≠ t2 → dayFloor t1 ≠ dayFloor t2) ∧
    (∀ (a d : ℤ) (rest : List (ℤ × ℤ)) (days : List ℤ),
      dayFloor (move_datetime_to_end_of_day d) ∈ days →
      readmission_go move_datetime_to_end_of_day ((a, d) :: rest) days =
        readmission_go move_datetime_to_end_of_day rest days) := by
  have hmem : ∀ t ∈ readmission_get_prediction_times pairs,
      ∃ pr ∈ pairs, t = move_datetime_to_end_of_day pr.2 := by
    intro t ht
    exact readmission_go_mem move_datetime_to_end_of_day pairs [] t
      (mem_sortedDedup.mp ht)
  refine ⟨sortedDedup_pairwise_lt _, hmem, ?_, ?_⟩
  · intro t1 h1 t2 h2 hne
    rcases hmem t1 h1 with ⟨pr1, _, rfl⟩
    rcases hmem t2 h2 with ⟨pr2, _, rfl⟩
    rw [dayFloor_end_of_day, dayFloor_end_of_day]
    unfold move_datetime_to_end_of_day at hne
    intro hcontra
    exact hne (by rw [hcontra])
  · intro a d rest days hday
    simp only [readmission_go]
    rw [if_pos hday]

/-- Witness for C8: discharges at times 10 and 200 both fall on day zero;
the first pair emits prediction time 1439 and counts day zero as an
admission day, the second pair is skipped because its prediction day is
already counted, and the output is the strictly ascending singleton. -/
theorem readmission_prediction_times_day_granularity_witness :
    dayFloor (move_datetime_to_end_of_day 200) ∈ [(0 : ℤ)] ∧
    readmission_go move_datetime_to_end_of_day [((100 : ℤ), (200 : ℤ))]
        [(0 : ℤ)] =
      readmission_go move_datetime_to_end_of_day [] [(0 : ℤ)] ∧
    List.Pairwise (· < ·)
      (readmission_get_prediction_times
        [((0 : ℤ), (10 : ℤ)), ((100 : ℤ), (200 : ℤ))]) ∧
    readmission_get_prediction_times
        [((0 : ℤ), (10 : ℤ)), ((100 : ℤ), (200 : ℤ))] = [(1439 : ℤ)] := by
  refine ⟨by decide, ?_, ?_, by decide⟩
  · exact (readmission_prediction_times_day_granularity
      [((0 : ℤ), (10 : ℤ)), ((100 : ℤ), (200 : ℤ))]).2.2.2 100 200 [] [0]
      (by decide)
  · exact (readmission_prediction_times_day_granularity
      [((0 : ℤ), (10 : ℤ)), ((100 : ℤ), (200 : ℤ))]).1

/-! ### Remaining length-of-stay nonnegativity (C9) -/

/-- Every label the hourly loop emits has a strictly positive remaining
length of stay, hence a nonnegative one. -/
theorem los_loop_nonneg (end_of_stay : ℤ) :
    ∀ event_time : ℤ, ∀ p ∈ los_loop end_of_stay event_time, 0 ≤ p.2 := by
  intro t
  generalize h : (end_of_stay - t).toNat = n
  induction n using Nat.strong_induction_on generalizing t with
  | _ n ih =>
    intro p hp
    rw [los_loop] at hp
    split at hp
    · rcases List.mem_cons.mp hp with rfl | hp1
      · have hpos : (0 : ℤ) < end_of_stay - t := by omega
        have : (0 : ℚ) < ((end_of_stay - t : ℤ) : ℚ) := by exact_mod_cast hpos
        positivity
      · exact ih (end_of_stay - (t + 60)).toNat (by omega) (t + 60) rfl p hp1
    · simp at hp

/-- C9: every numeric label emitted by Harutyunyan_LengthOfStayLabeler.label
has a nonnegative value — the remaining length of stay in hours is at least
zero for every emitted label, so the internal assertion that the LOS is
never negative cannot fire. -/
theorem harutyunyan_los_labels_nonneg (icu_codes death_codes : List String)
    (does_exist_event_within_time_range : ℤ → ℤ → Bool)
    (events : List FEvent) (labels : List (ℤ × ℚ))
    (h : harutyunyan_los_label icu_codes death_codes
        does_exist_event_within_time_range events = .ok labels) :
    ∀ p ∈ labels, 0 ≤ p.2 := by
  unfold harutyunyan_los_label at h
  cases hicu : get_icu_events icu_codes events with
  | error e => rw [hicu] at h; cases h
  | ok icu_events =>
      rw [hicu] at h
      cases h
      intro p hp
      rcases List.mem_flatMap.mp hp with ⟨e, _, hpe⟩
      split at hpe
      · simp at hpe
      · split at hpe
        · exact los_loop_nonneg _ _ p hpe
        · simp at hpe

/-- Witness for C9: one four-hundred-minute ICU stay and no deaths yield the
single label at minute 240 with one hour of stay remaining, a nonnegative
value. -/
theorem harutyunyan_los_labels_nonneg_witness :
    harutyunyan_los_label ["ICU"] [] (fun _ _ => true)
        [⟨0, some 300, "ICU", some "visit_detail"⟩] =
      .ok [((240 : ℤ), (1 : ℚ))] ∧
    ∀ p ∈ [((240 : ℤ), (1 : ℚ))], 0 ≤ p.2 := by
  have heval : harutyunyan_los_label ["ICU"] [] (fun _ _ => true)
      [⟨0, some 300, "ICU", some "visit_detail"⟩] =
        .ok [((240 : ℤ), (1 : ℚ))] := by
    have h1 : los_loop 300 240 = [((240 : ℤ), (1 : ℚ))] := by
      rw [los_loop]
      norm_num
      rw [los_loop]
      norm_num
    unfold harutyunyan_los_label
    simp [get_icu_events, h1, Except.map]
  exact ⟨heval, harutyunyan_los_labels_nonneg ["ICU"] [] (fun _ _ => true)
    [⟨0, some 300, "ICU", some "visit_detail"⟩] [((240 : ℤ), (1 : ℚ))] heval⟩
